import Mathlib

/-!
Shallow embedding of the CodeClarityCE PHP SBOM plugin
(src/parser/composer_parser.go, src/project_finder/php_finder.go,
src/types/sbom.go, src/php-sbom.go) and proofs about its
manifest-resolution and dependency-classification pipeline.

Go `map[string]V` values are modelled as association lists
`List (String × V)` with `assocGet` (map read) and `assocSet`
(map assignment, overwriting an existing key).  Go slices are Lean
lists.  Filesystem and Go-stdlib path operations (`filepath.Rel`,
`filepath.Dir`, `filepath.Join`, `filepath.Abs`, `os.Stat`,
`filepath.Walk`) are supplied by an explicit environment record so
that the repository's own logic stays executable and provable.
-/

set_option autoImplicit false

namespace PhpSbom

/-- Go map read `v, ok := m[k]`: first binding of the key wins
(assocSet keeps at most one binding per key). -/
def assocGet {α : Type} (k : String) : List (String × α) → Option α
  | [] => none
  | (k', v) :: rest => if k' = k then some v else assocGet k rest

/-- Go map assignment `m[k] = v`: overwrite the existing binding for the
key, or append a fresh one. -/
def assocSet {α : Type} (k : String) (v : α) : List (String × α) → List (String × α)
  | [] => [(k, v)]
  | (k', v') :: rest => if k' = k then (k, v) :: rest else (k', v') :: assocSet k v rest

/-- JSON value shape for Go `any` fields (the polymorphic `license`
field decodes to `string`, `[]any`, or anything else). -/
inductive JVal where
  | str (s : String)
  | arr (l : List JVal)
  | num (n : Int)
  | boolean (b : Bool)
  | null
  | obj (fields : List (String × JVal))

/-- parser.Author -/
structure Author where
  Name : String
  Email : String
  Role : String
  deriving DecidableEq, Repr

/-- parser.ComposerJSON (composer.json manifest).  Go field `Type` is
rendered `PkgType`; `License` is the polymorphic `any` field. -/
structure ComposerJSON where
  Name : String := ""
  Description : String := ""
  PkgType : String := ""
  Version : String := ""
  License : JVal := JVal.null
  Require : List (String × String) := []
  RequireDev : List (String × String) := []
  Authors : List Author := []

/-- parser.PackageInfo (one resolved package of composer.lock); fields
not read by the pipeline (Source, Dist, Keywords, Time, Autoload,
NotificationURL, Extra) are omitted. -/
structure PackageInfo where
  Name : String := ""
  Version : String := ""
  Require : List (String × String) := []
  RequireDev : List (String × String) := []
  PkgType : String := ""
  License : JVal := JVal.null
  Authors : List Author := []
  Description : String := ""

/-- parser.ComposerLock (composer.lock). -/
structure ComposerLock where
  ContentHash : String := ""
  Packages : List PackageInfo := []
  PackagesDev : List PackageInfo := []
  MinimumStability : String := ""
  PreferStable : Bool := false
  Platform : List (String × String) := []
  PluginAPIVersion : String := ""

/-- parser.NormalizeLicense: a string becomes a one-element list, an
array keeps exactly its string elements, anything else becomes []. -/
def NormalizeLicense : JVal → List String
  | JVal.str v => [v]
  | JVal.arr v => v.filterMap (fun l => match l with | JVal.str s => some s | _ => none)
  | _ => []

/-- types.* workspace constants. -/
def DEFAULT_WORKSPACE_CHARACTER : String := "."

def SELF_MANAGED_WORKSPACE_CHARACTER : String := "self-managed"

def VERSION_SEPARATOR : String := "@"

def PACKAGE_MANAGER : String := "composer"

/-- types.Versions (one version record of the dependency map).
Go field `Type` is rendered `PkgType`. -/
structure Versions where
  Key : String
  Requires : List (String × String)
  Dependencies : List (String × String)
  Optional : Bool
  Bundled : Bool
  Dev : Bool
  Prod : Bool
  Direct : Bool
  Transitive : Bool
  Licenses : List String
  PHPVersion : String
  PkgType : String
  Authors : List Author
  Description : String
  deriving DecidableEq, Repr

/-- types.WorkSpaceDependency -/
structure WorkSpaceDependency where
  Name : String
  Version : String
  Constraint : String
  deriving DecidableEq, Repr

/-- types.Start -/
structure StartLists where
  Dependencies : List WorkSpaceDependency
  DevDependencies : List WorkSpaceDependency
  deriving DecidableEq, Repr

/-- types.WorkSpace -/
structure WorkSpace where
  Dependencies : List (String × List (String × Versions))
  Start : StartLists
  deriving DecidableEq, Repr

/-- exceptions.ErrorContent (utility-types); Go field `Type` is
rendered `ErrType`. -/
structure ErrorContent where
  ErrType : String
  Description : String
  deriving DecidableEq, Repr

/-- exceptions.Error: public and private description of a collected
error. -/
structure PluginError where
  Public : ErrorContent
  Private : ErrorContent
  deriving DecidableEq, Repr

/-- exceptionManager.AddError(description, publicType, privateDescription, privateType). -/
def mkError (description publicType privateDescription privateType : String) : PluginError :=
  { Public := { ErrType := publicType, Description := description }
    Private := { ErrType := privateType, Description := privateDescription } }

def GENERIC_ERROR : String := "GENERIC_ERROR"

def UNSUPPORTED_LANGUAGE_REQUESTED : String := "UNSUPPORTED_LANGUAGE_REQUESTED"

/-- codeclarity_db.AnalysisStatus -/
inductive AnalysisStatus where
  | SUCCESS
  | FAILURE
  deriving DecidableEq, Repr

/-- types.AnalysisInfo restricted to the fields the claims are about
(status, project name, package manager, collected errors, monorepo
flag); wall-clock timing and path echoes are not modelled. -/
structure AnalysisInfo where
  Status : AnalysisStatus
  ProjectName : String
  PackageManager : String
  Errors : List PluginError
  WorkSpacesUsed : Bool
  deriving DecidableEq, Repr

/-- types.Output -/
structure Output where
  WorkSpaces : List (String × WorkSpace)
  AnalysisInfo : AnalysisInfo
  deriving DecidableEq, Repr

/-- strings.HasPrefix, on the character lists of the strings. -/
def goHasPre (s pat : String) : Bool :=
  pat.data.isPrefixOf s.data

/-- isExtension: name longer than 4 bytes starting with "ext-". -/
def isExtension (name : String) : Bool :=
  name.length > 4 && name.take 4 == "ext-"

/-- isDirectDependency: membership of the package name in the
manifest's dev (resp. prod) requirement map; false when the manifest
pointer is nil. -/
def isDirectDependency (packageName : String) (composerJSON : Option ComposerJSON) (isDev : Bool) : Bool :=
  match composerJSON with
  | none => false
  | some c =>
    if isDev then (assocGet packageName c.RequireDev).isSome
    else (assocGet packageName c.Require).isSome

/-- getResolvedVersion: first version key recorded for the package in
the dependency map, "" when absent. -/
def getResolvedVersion (packageName : String) (dependencies : List (String × List (String × Versions))) : String :=
  match assocGet packageName dependencies with
  | some ((version, _) :: _) => version
  | _ => ""

/-- getProjectName -/
def getProjectName (composerJSON : Option ComposerJSON) : String :=
  match composerJSON with
  | some c => if c.Name ≠ "" then c.Name else "unknown"
  | none => "unknown"

/-- The Versions record built in buildCompatibleWorkspace's lockfile
loops; `isDev = false` gives the production-loop literal
(Dev=false, Prod=true), `isDev = true` the dev-loop literal. -/
def mkVersions (composerJSON : Option ComposerJSON) (isDev : Bool) (pkg : PackageInfo) : Versions :=
  { Key := pkg.Name ++ VERSION_SEPARATOR ++ pkg.Version
    Requires := pkg.Require
    Dependencies := pkg.Require
    Optional := false
    Bundled := false
    Dev := isDev
    Prod := !isDev
    Direct := isDirectDependency pkg.Name composerJSON isDev
    Transitive := !(isDirectDependency pkg.Name composerJSON isDev)
    Licenses := NormalizeLicense pkg.License
    PHPVersion := ""
    PkgType := pkg.PkgType
    Authors := pkg.Authors
    Description := pkg.Description }

/-- The two lockfile loops of buildCompatibleWorkspace: each package
assigns a fresh one-version map to `dependencies[pkg.Name]`. -/
def lockLoop (composerJSON : Option ComposerJSON) (isDev : Bool) (pkgs : List PackageInfo)
    (acc : List (String × List (String × Versions))) : List (String × List (String × Versions)) :=
  pkgs.foldl (fun m pkg => assocSet pkg.Name [(pkg.Version, mkVersions composerJSON isDev pkg)] m) acc

/-- buildCompatibleWorkspace: dependency map from the lockfile (when
present), direct and dev-direct lists from the manifest (when
present). -/
def buildCompatibleWorkspace (composerJSON : Option ComposerJSON) (composerLock : Option ComposerLock) : WorkSpace :=
  let dependencies : List (String × List (String × Versions)) :=
    match composerLock with
    | none => []
    | some lock => lockLoop composerJSON true lock.PackagesDev (lockLoop composerJSON false lock.Packages [])
  let directDeps : List WorkSpaceDependency :=
    match composerJSON with
    | none => []
    | some c =>
      (c.Require.filter (fun p => p.1 != "php" && !isExtension p.1)).map
        (fun p => { Name := p.1, Version := getResolvedVersion p.1 dependencies, Constraint := p.2 })
  let directDevDeps : List WorkSpaceDependency :=
    match composerJSON with
    | none => []
    | some c =>
      c.RequireDev.map
        (fun p => { Name := p.1, Version := getResolvedVersion p.1 dependencies, Constraint := p.2 })
  { Dependencies := dependencies
    Start := { Dependencies := directDeps, DevDependencies := directDevDeps } }

/-- project_finder.detectFramework: the ordered first-match rule list
exactly as written in the source. -/
def detectFramework (composerData : ComposerJSON) : String :=
  if (assocGet "cakephp/cakephp" composerData.Require).isSome then "CakePHP"
  else if (assocGet "laravel/framework" composerData.Require).isSome then "Laravel"
  else if (assocGet "symfony/framework-bundle" composerData.Require).isSome then "Symfony"
  else if composerData.Require.any (fun p => goHasPre p.1 "symfony/") then "Symfony Components"
  else if composerData.PkgType == "wordpress-plugin" || composerData.PkgType == "wordpress-theme" then "WordPress"
  else if (assocGet "johnpbloch/wordpress" composerData.Require).isSome then "WordPress"
  else if (assocGet "drupal/core" composerData.Require).isSome then "Drupal"
  else if composerData.PkgType == "drupal-module" || composerData.PkgType == "drupal-theme" then "Drupal"
  else if (assocGet "laminas/laminas-mvc" composerData.Require).isSome then "Laminas"
  else if (assocGet "zendframework/zend-mvc" composerData.Require).isSome then "Zend Framework"
  else if (assocGet "slim/slim" composerData.Require).isSome then "Slim"
  else if (assocGet "codeigniter4/framework" composerData.Require).isSome then "CodeIgniter 4"
  else if (assocGet "yiisoft/yii2" composerData.Require).isSome then "Yii2"
  else if (assocGet "laravel/lumen-framework" composerData.Require).isSome then "Lumen"
  else "Generic PHP"

/-- project_finder.DetectPHPVersion -/
def DetectPHPVersion (composerData : ComposerJSON) : String :=
  match assocGet "php" composerData.Require with
  | some v => v
  | none => ""

/-- project_finder.WorkspaceInfo -/
structure WorkspaceInfo where
  Name : String
  Path : String
  ComposerJSONPath : String
  ComposerLockPath : String
  RelativeComposerJSON : String
  RelativeComposerLock : String
  ComposerJSON : Option ComposerJSON
  ComposerLock : Option ComposerLock

/-- project_finder.ProjectInfo -/
structure ProjectInfo where
  Name : String
  Version : String
  Description : String
  RootDir : String
  ComposerJSONPath : String
  ComposerLockPath : String
  RelativeComposerJSON : String
  RelativeComposerLock : String
  ComposerJSON : Option ComposerJSON
  ComposerLock : Option ComposerLock
  Framework : String
  IsMonorepo : Bool
  Workspaces : List WorkspaceInfo

/-- Environment supplying the filesystem facts and Go-stdlib calls the
pipeline consumes: existence of the source directory (os.Stat), the
composer.json / composer.lock files that parser.FindComposerFiles
returns together with its walk error, per-path JSON decode results
(os.ReadFile + json.Unmarshal), and the path operations filepath.Rel
(none when Rel errors), filepath.Dir, filepath.Join, filepath.Abs. -/
structure FinderEnv where
  dirExists : Bool
  composerJSONFiles : List String
  composerLockFiles : List String
  walkError : Option String
  parseJSONResult : String → Except String ComposerJSON
  parseLockResult : String → Except String ComposerLock
  rel : String → String → Option String
  dirOf : String → String
  joinPath : String → String → String
  absPath : String → String

/-- strings.Count(relPath, string(os.PathSeparator)) on Linux: number
of slashes. -/
def stringCountSep (s : String) : Nat :=
  (s.data.filter (fun c => c = '/')).length

/-- The directory depth computed per candidate in
findRootComposerFile: slash count of filepath.Rel(rootDir, file),
where a Rel error leaves relPath empty. -/
def fileDepth (env : FinderEnv) (rootDir file : String) : Nat :=
  stringCountSep ((env.rel rootDir file).getD "")

/-- int(^uint(0) >> 1), the initial minDepth of findRootComposerFile. -/
def goMaxInt : Nat := 2 ^ 63 - 1

/-- The loop of project_finder.findRootComposerFile. -/
def findRootAux (env : FinderEnv) (rootDir : String) :
    List String → String → Nat → String
  | [], rootFile, _ => rootFile
  | file :: rest, rootFile, minDepth =>
    if fileDepth env rootDir file < minDepth then
      findRootAux env rootDir rest file (fileDepth env rootDir file)
    else
      findRootAux env rootDir rest rootFile minDepth

/-- project_finder.findRootComposerFile -/
def findRootComposerFile (env : FinderEnv) (rootDir : String) (composerFiles : List String) : String :=
  findRootAux env rootDir composerFiles "" goMaxInt

/-- project_finder.findMatchingLockFile: the first lockfile equal to
dir(composer.json)/composer.lock, by direct or absolute-path
comparison; "" when none matches. -/
def findMatchingLockFile (env : FinderEnv) (composerJSONPath : String) (lockFiles : List String) : String :=
  let dir := env.dirOf composerJSONPath
  let expectedLockPath := env.joinPath dir "composer.lock"
  match lockFiles.find?
      (fun lockFile => lockFile == expectedLockPath
        || env.absPath expectedLockPath == env.absPath lockFile) with
  | some lockFile => lockFile
  | none => ""

/-- project_finder.getRelativePath: filepath.Rel, falling back to the
target on error. -/
def getRelativePath (env : FinderEnv) (base target : String) : String :=
  (env.rel base target).getD target

/-- strings.Contains: some suffix of s starts with sub. -/
def containsSub (s sub : String) : Bool :=
  (List.range (s.data.length + 1)).any (fun i => sub.data.isPrefixOf (s.data.drop i))

/-- project_finder.findWorkspaces: every non-root, non-vendored
composer.json whose decode succeeds becomes a workspace; decode
failures are silently skipped. -/
def findWorkspaces (env : FinderEnv) (rootDir rootComposerPath : String)
    (composerFiles lockFiles : List String) : List WorkspaceInfo :=
  let rootComposerDir := env.dirOf rootComposerPath
  composerFiles.filterMap (fun composerFile =>
    if composerFile == rootComposerPath then none
    else if containsSub composerFile "/vendor/" then none
    else
      match env.parseJSONResult composerFile with
      | Except.error _ => none
      | Except.ok composerData =>
        let lockPath := findMatchingLockFile env composerFile lockFiles
        some { Name := composerData.Name
               Path := env.dirOf composerFile
               ComposerJSONPath := composerFile
               ComposerLockPath := lockPath
               RelativeComposerJSON := getRelativePath env rootComposerDir composerFile
               RelativeComposerLock :=
                 if lockPath ≠ "" then getRelativePath env rootComposerDir lockPath else ""
               ComposerJSON := some composerData
               ComposerLock :=
                 if lockPath ≠ "" then
                   match env.parseLockResult lockPath with
                   | Except.ok lockData => some lockData
                   | Except.error _ => none
                 else none })

/-- project_finder.FindPHPProjects.  A root-lockfile decode failure is
swallowed (ComposerLock stays nil); only walk errors, a missing
composer.json and a root-manifest decode failure are errors. -/
def FindPHPProjects (env : FinderEnv) (rootDir : String) : Except String ProjectInfo :=
  match env.walkError with
  | some e => Except.error ("failed to find composer files: " ++ e)
  | none =>
    if env.composerJSONFiles.length = 0 then Except.error "no composer.json files found"
    else
      let rootComposerJSON := findRootComposerFile env rootDir env.composerJSONFiles
      let rootComposerLock := findMatchingLockFile env rootComposerJSON env.composerLockFiles
      match env.parseJSONResult rootComposerJSON with
      | Except.error e => Except.error ("failed to parse root composer.json: " ++ e)
      | Except.ok composerData =>
        Except.ok
          { Name := composerData.Name
            Version := composerData.Version
            Description := composerData.Description
            RootDir := rootDir
            ComposerJSONPath := rootComposerJSON
            ComposerLockPath := rootComposerLock
            RelativeComposerJSON := getRelativePath env rootDir rootComposerJSON
            RelativeComposerLock := getRelativePath env rootDir rootComposerLock
            ComposerJSON := some composerData
            ComposerLock :=
              if rootComposerLock ≠ "" then
                match env.parseLockResult rootComposerLock with
                | Except.ok lockData => some lockData
                | Except.error _ => none
              else none
            Framework := detectFramework composerData
            IsMonorepo := env.composerJSONFiles.length > 1
            Workspaces :=
              if env.composerJSONFiles.length > 1 then
                findWorkspaces env rootDir rootComposerJSON env.composerJSONFiles env.composerLockFiles
              else [] }

/-- buildCompatibleWorkspaces: the main workspace under the "." key,
then (for monorepos) one workspace per secondary composer.json keyed
by its manifest path relative to the root manifest's directory. -/
def buildCompatibleWorkspaces (projectInfo : ProjectInfo) : List (String × WorkSpace) :=
  let mainWorkspace := buildCompatibleWorkspace projectInfo.ComposerJSON projectInfo.ComposerLock
  let workspaces := assocSet DEFAULT_WORKSPACE_CHARACTER mainWorkspace []
  if projectInfo.IsMonorepo then
    projectInfo.Workspaces.foldl
      (fun acc ws =>
        assocSet ws.RelativeComposerJSON (buildCompatibleWorkspace ws.ComposerJSON ws.ComposerLock) acc)
      workspaces
  else workspaces

/-- generateCompatibleAnalysisInfo restricted to the modelled fields;
`errors` is the invocation-scoped error accumulation read by
exceptionManager.GetErrors() (empty on the success path, where no
AddError call has run). -/
def generateCompatibleAnalysisInfo (projectInfo : ProjectInfo) (errors : List PluginError) : AnalysisInfo :=
  { Status := AnalysisStatus.SUCCESS
    ProjectName := getProjectName projectInfo.ComposerJSON
    PackageManager := PACKAGE_MANAGER
    Errors := errors
    WorkSpacesUsed := projectInfo.IsMonorepo }

/-- generateFailureOutput: empty workspace map, FAILURE status, the
accumulated errors. -/
def generateFailureOutput (errors : List PluginError) (projectName : String) : Output :=
  { WorkSpaces := []
    AnalysisInfo :=
      { Status := AnalysisStatus.FAILURE
        ProjectName := projectName
        PackageManager := PACKAGE_MANAGER
        Errors := errors
        WorkSpacesUsed := false } }

/-- Start: the plugin entrypoint.  The missing-directory and
finder-error branches add one error each to the invocation's error
list and return the failure output; the success branch builds the
workspaces and reports the (empty) error accumulation. -/
def Start (env : FinderEnv) (sourceCodeDir : String) : Output :=
  if env.dirExists = false then
    generateFailureOutput
      [mkError "Source directory not found" GENERIC_ERROR
        ("The source directory does not exist: " ++ sourceCodeDir) "SourceCodeDirDoesNotExist"] ""
  else
    match FindPHPProjects env sourceCodeDir with
    | Except.error e =>
      generateFailureOutput
        [mkError "No PHP project found in the source directory" UNSUPPORTED_LANGUAGE_REQUESTED
          ("Error finding PHP projects: " ++ e) UNSUPPORTED_LANGUAGE_REQUESTED] ""
    | Except.ok projectInfo =>
      { WorkSpaces := buildCompatibleWorkspaces projectInfo
        AnalysisInfo := generateCompatibleAnalysisInfo projectInfo [] }

/-- Root-manifest selection as the spec words it, for comparison with
findRootComposerFile: the candidate of smallest directory depth, ties
broken in favour of the earlier (traversal-order) candidate. -/
def rootManifestSpec (depth : String → Nat) : List String → Option String
  | [] => none
  | f :: rest =>
    match rootManifestSpec depth rest with
    | none => some f
    | some g => if depth f ≤ depth g then some f else some g

/-! Concrete inputs used by counterexamples and witnesses. -/

/-- A POSIX-flavoured filepath.Rel for concrete environments. -/
def posixRel (base target : String) : Option String :=
  if goHasPre target (base ++ "/") then some (String.mk (target.data.drop (base.data.length + 1)))
  else some target

/-- Manifest with one production and one development requirement. -/
def cjC1 : ComposerJSON :=
  { Require := [("cakephp/cakephp", "^4.0")], RequireDev := [("phpunit/phpunit", "^9.0")] }

/-- Manifest with interpreter and extension pseudo-packages among the
dev requirements. -/
def cjC2 : ComposerJSON :=
  { RequireDev := [("php", "^8.1"), ("ext-json", "*")] }

/-- Manifest for the lockfile-free scenario. -/
def cjEx : ComposerJSON :=
  { Name := "acme/app"
    Require := [("php", "^8.1"), ("cakephp/cakephp", "^4.0")]
    RequireDev := [("phpunit/phpunit", "^9.0")] }

/-- Environment of a project directory holding a single composer.json
and no composer.lock. -/
def envNoLock : FinderEnv :=
  { dirExists := true
    composerJSONFiles := ["/proj/composer.json"]
    composerLockFiles := []
    walkError := none
    parseJSONResult := fun _ => Except.ok cjEx
    parseLockResult := fun _ => Except.error "open composer.lock: no such file or directory"
    rel := posixRel
    dirOf := fun _ => "/proj"
    joinPath := fun a b => a ++ "/" ++ b
    absPath := fun s => s }

/-- Manifest whose requirements make one lock package direct. -/
def cjC4 : ComposerJSON :=
  { Require := [("monolog/monolog", "^2.0")], RequireDev := [("phpunit/phpunit", "^9.0")] }

/-- A resolved production package. -/
def pkgC4 : PackageInfo :=
  { Name := "monolog/monolog", Version := "2.9.1", License := JVal.str "MIT" }

/-- Lockfile with one resolved production package (direct) and one
resolved dev package (transitive). -/
def lockC4 : ComposerLock :=
  { Packages := [pkgC4]
    PackagesDev := [{ Name := "sebastian/diff", Version := "4.0.4" }] }

/-- The dev-list occurrence of psr/log in lockC5. -/
def pkgC5 : PackageInfo := { Name := "psr/log", Version := "3.0.0" }

/-- Lockfile listing the same package name in both the production and
the development package lists. -/
def lockC5 : ComposerLock :=
  { Packages := [{ Name := "psr/log", Version := "1.1.4" }]
    PackagesDev := [pkgC5] }

/-- wordpress-plugin typed manifest requiring a symfony/ component. -/
def cjC6 : ComposerJSON :=
  { PkgType := "wordpress-plugin", Require := [("symfony/console", "^5.0")] }

/-- Manifest requiring laravel/framework. -/
def cjC6L : ComposerJSON :=
  { Require := [("laravel/framework", "^10.0")] }

/-- Manifest matching no framework rule. -/
def cjC6G : ComposerJSON :=
  { PkgType := "library", Require := [("monolog/monolog", "^2.0")] }

/-- Environment with manifests at directory depths 2, 0 and 1. -/
def envC7 : FinderEnv :=
  { dirExists := true
    composerJSONFiles := ["/r/a/b/composer.json", "/r/composer.json", "/r/a/composer.json"]
    composerLockFiles := []
    walkError := none
    parseJSONResult := fun _ => Except.ok cjC6G
    parseLockResult := fun _ => Except.error "missing"
    rel := posixRel
    dirOf := fun _ => "/r"
    joinPath := fun a b => a ++ "/" ++ b
    absPath := fun s => s }

/-- Environment whose source directory does not exist. -/
def envC8 : FinderEnv :=
  { dirExists := false
    composerJSONFiles := []
    composerLockFiles := []
    walkError := none
    parseJSONResult := fun _ => Except.error "unread"
    parseLockResult := fun _ => Except.error "unread"
    rel := posixRel
    dirOf := fun _ => ""
    joinPath := fun a b => a ++ "/" ++ b
    absPath := fun s => s }

/-- Root manifest of the malformed-lockfile scenario. -/
def cjC9 : ComposerJSON :=
  { Name := "acme/app", Require := [("monolog/monolog", "^2.0")] }

/-- Environment with a composer.lock next to the root composer.json
whose JSON decode fails. -/
def envC9 : FinderEnv :=
  { dirExists := true
    composerJSONFiles := ["/p/composer.json"]
    composerLockFiles := ["/p/composer.lock"]
    walkError := none
    parseJSONResult := fun _ => Except.ok cjC9
    parseLockResult := fun _ => Except.error "invalid character at offset 0"
    rel := posixRel
    dirOf := fun _ => "/p"
    joinPath := fun a b => a ++ "/" ++ b
    absPath := fun s => s }

/-- Root manifest of the monorepo scenario. -/
def cjRoot : ComposerJSON := { Name := "acme/mono" }

/-- Secondary manifest of the monorepo scenario. -/
def cjA : ComposerJSON := { Name := "acme/a", Require := [("monolog/monolog", "^2.0")] }

/-- Monorepo environment: root manifest plus one manifest in
pkgs/a. -/
def envC10 : FinderEnv :=
  { dirExists := true
    composerJSONFiles := ["/p/composer.json", "/p/pkgs/a/composer.json"]
    composerLockFiles := []
    walkError := none
    parseJSONResult := fun p => if p = "/p/composer.json" then Except.ok cjRoot else Except.ok cjA
    parseLockResult := fun _ => Except.error "missing"
    rel := posixRel
    dirOf := fun s => if s = "/p/composer.json" then "/p" else "/p/pkgs/a"
    joinPath := fun a b => a ++ "/" ++ b
    absPath := fun s => s }

/-- The workspace record findWorkspaces builds for pkgs/a. -/
def wsA : WorkspaceInfo :=
  { Name := "acme/a"
    Path := "/p/pkgs/a"
    ComposerJSONPath := "/p/pkgs/a/composer.json"
    ComposerLockPath := ""
    RelativeComposerJSON := "pkgs/a/composer.json"
    RelativeComposerLock := ""
    ComposerJSON := some cjA
    ComposerLock := none }

/-- The ProjectInfo FindPHPProjects returns on envC10. -/
def piC10 : ProjectInfo :=
  { Name := "acme/mono"
    Version := ""
    Description := ""
    RootDir := "/p"
    ComposerJSONPath := "/p/composer.json"
    ComposerLockPath := ""
    RelativeComposerJSON := "composer.json"
    RelativeComposerLock := ""
    ComposerJSON := some cjRoot
    ComposerLock := none
    Framework := "Generic PHP"
    IsMonorepo := true
    Workspaces := [wsA] }

/-! Association-list (Go map) lemmas. -/

theorem assocGet_assocSet_self {α : Type} (k : String) (v : α) (m : List (String × α)) :
    assocGet k (assocSet k v m) = some v := by
  induction m with
  | nil => simp [assocGet, assocSet]
  | cons p rest ih =>
    by_cases h : p.1 = k
    · simp [assocGet, assocSet, h]
    · simpa [assocGet, assocSet, h] using ih

theorem assocGet_assocSet_ne {α : Type} {k k' : String} (h : k' ≠ k) (v : α) (m : List (String × α)) :
    assocGet k (assocSet k' v m) = assocGet k m := by
  induction m with
  | nil => simp [assocGet, assocSet, h]
  | cons p rest ih =>
    by_cases hp : p.1 = k'
    · simp [assocGet, assocSet, hp, h]
    · by_cases hk : p.1 = k
      · simp [assocGet, assocSet, hp, hk, Ne.symm h]
      · simpa [assocGet, assocSet, hp, hk] using ih

theorem mem_assocSet {α : Type} {p : String × α} {k : String} {v : α} {m : List (String × α)}
    (hp : p ∈ assocSet k v m) : p = (k, v) ∨ p ∈ m := by
  induction m with
  | nil => simpa [assocSet] using hp
  | cons q rest ih =>
    by_cases h : q.1 = k
    · rcases (by simpa [assocSet, h] using hp : p = (k, v) ∨ p ∈ rest) with h' | h'
      · exact Or.inl h'
      · exact Or.inr (List.mem_cons_of_mem _ h')
    · rcases (by simpa [assocSet, h] using hp : p = q ∨ p ∈ assocSet k v rest) with h' | h'
      · exact Or.inr (h' ▸ List.mem_cons_self _ _)
      · rcases ih h' with h'' | h''
        · exact Or.inl h''
        · exact Or.inr (List.mem_cons_of_mem _ h'')

/-- Recovering a list of strings injected into JSON array shape. -/
theorem filterMap_str_map (l : List String) :
    (l.map JVal.str).filterMap
      (fun j => match j with | JVal.str s => some s | _ => none) = l := by
  induction l with
  | nil => rfl
  | cons x xs ih => simpa [List.filterMap_cons] using ih

/-- The dependency map built from a present lockfile: the production
loop followed by the dev loop. -/
theorem buildCompatibleWorkspace_dependencies (cj : Option ComposerJSON) (lock : ComposerLock) :
    (buildCompatibleWorkspace cj (some lock)).Dependencies =
      lockLoop cj true lock.PackagesDev (lockLoop cj false lock.Packages []) := rfl

/-! Claim theorems. -/

/-- C1 counterexample: with no lockfile, the code leaves the
Dependencies map empty, so the package declared in the manifest's
production requirement map has no entry at all (the claim asserts one
entry per declared package with an empty version key). -/
theorem C1_counterexample :
    cjC1.Require = [("cakephp/cakephp", "^4.0")] ∧
    cjC1.RequireDev = [("phpunit/phpunit", "^9.0")] ∧
    (buildCompatibleWorkspace (some cjC1) none).Dependencies = [] ∧
    assocGet "cakephp/cakephp" (buildCompatibleWorkspace (some cjC1) none).Dependencies = none ∧
    assocGet "phpunit/phpunit" (buildCompatibleWorkspace (some cjC1) none).Dependencies = none :=
  ⟨rfl, rfl, rfl, rfl, rfl⟩

/-- C1 (amended): when no lockfile is present the workspace's
Dependencies mapping is empty; the manifest's requirements surface
only in the Start lists, with unresolved (empty) version strings; and
the absence of the lockfile does not fail the pipeline (Start still
reports Success whenever the root manifest parses). -/
theorem C1_no_lockfile_amended :
    (∀ cj : ComposerJSON,
      (buildCompatibleWorkspace (some cj) none).Dependencies = [] ∧
      (∀ d ∈ (buildCompatibleWorkspace (some cj) none).Start.Dependencies, d.Version = "") ∧
      (∀ d ∈ (buildCompatibleWorkspace (some cj) none).Start.DevDependencies, d.Version = "") ∧
      (∀ p ∈ cj.Require, p.1 ≠ "php" → isExtension p.1 = false →
        ({ Name := p.1, Version := "", Constraint := p.2 } : WorkSpaceDependency) ∈
          (buildCompatibleWorkspace (some cj) none).Start.Dependencies) ∧
      (∀ p ∈ cj.RequireDev,
        ({ Name := p.1, Version := "", Constraint := p.2 } : WorkSpaceDependency) ∈
          (buildCompatibleWorkspace (some cj) none).Start.DevDependencies)) ∧
    (∀ (env : FinderEnv) (dir : String) (cd : ComposerJSON),
      env.dirExists = true → env.walkError = none → env.composerJSONFiles ≠ [] →
      env.parseJSONResult (findRootComposerFile env dir env.composerJSONFiles) = Except.ok cd →
      (Start env dir).AnalysisInfo.Status = AnalysisStatus.SUCCESS) := by
  constructor
  · intro cj
    refine ⟨rfl, ?_, ?_, ?_, ?_⟩
    · intro d hd
      simp only [buildCompatibleWorkspace, List.mem_map, List.mem_filter] at hd
      obtain ⟨p, _, rfl⟩ := hd
      rfl
    · intro d hd
      simp only [buildCompatibleWorkspace, List.mem_map] at hd
      obtain ⟨p, _, rfl⟩ := hd
      rfl
    · intro p hp hphp hext
      simp only [buildCompatibleWorkspace, List.mem_map, List.mem_filter]
      exact ⟨p, ⟨hp, by simp [hphp, hext]⟩, rfl⟩
    · intro p hp
      simp only [buildCompatibleWorkspace, List.mem_map]
      exact ⟨p, hp, rfl⟩
  · intro env dir cd hdir hwalk hfiles hjson
    have hlen : ¬ env.composerJSONFiles.length = 0 := by
      simpa [List.length_eq_zero] using hfiles
    simp [Start, hdir, FindPHPProjects, hwalk, hlen, hjson, generateCompatibleAnalysisInfo]

/-- C1 witness. -/
theorem C1_no_lockfile_amended_witness :
    (buildCompatibleWorkspace (some cjEx) none).Dependencies = [] ∧
    ({ Name := "cakephp/cakephp", Version := "", Constraint := "^4.0" } : WorkSpaceDependency) ∈
      (buildCompatibleWorkspace (some cjEx) none).Start.Dependencies ∧
    (Start envNoLock "/proj").AnalysisInfo.Status = AnalysisStatus.SUCCESS := by
  obtain ⟨h1, h2⟩ := C1_no_lockfile_amended
  refine ⟨(h1 cjEx).1, ?_, ?_⟩
  · exact (h1 cjEx).2.2.2.1 ("cakephp/cakephp", "^4.0") (by decide) (by decide) (by decide)
  · exact h2 envNoLock "/proj" cjEx rfl rfl (by decide) rfl

/-- C2 counterexample: the development direct-dependency list does NOT
exclude the interpreter pseudo-requirement "php" nor "ext-" packages
(only the production list is filtered). -/
theorem C2_counterexample :
    ({ Name := "php", Version := "", Constraint := "^8.1" } : WorkSpaceDependency) ∈
      (buildCompatibleWorkspace (some cjC2) none).Start.DevDependencies ∧
    ({ Name := "ext-json", Version := "", Constraint := "*" } : WorkSpaceDependency) ∈
      (buildCompatibleWorkspace (some cjC2) none).Start.DevDependencies := by
  constructor <;> decide

/-- C2 (amended): only Start.Dependencies (built from the production
requirement map) excludes "php" and "ext-"-prefixed pseudo-packages;
Start.DevDependencies carries every development requirement
unfiltered. -/
theorem C2_direct_lists_amended (cj : ComposerJSON) (cl : Option ComposerLock) :
    (∀ d ∈ (buildCompatibleWorkspace (some cj) cl).Start.Dependencies,
        d.Name ≠ "php" ∧ isExtension d.Name = false) ∧
    ((buildCompatibleWorkspace (some cj) cl).Start.DevDependencies.map
        (fun d => d.Name) = cj.RequireDev.map (fun p => p.1)) := by
  constructor
  · intro d hd
    simp only [buildCompatibleWorkspace, List.mem_map, List.mem_filter] at hd
    obtain ⟨p, ⟨_, hcond⟩, rfl⟩ := hd
    simp only [Bool.and_eq_true, bne_iff_ne, ne_eq, Bool.not_eq_true'] at hcond
    exact ⟨hcond.1, hcond.2⟩
  · simp only [buildCompatibleWorkspace, List.map_map]
    rfl

/-- C2 witness. -/
theorem C2_direct_lists_amended_witness :
    (buildCompatibleWorkspace (some cjC2) none).Start.DevDependencies.map
      (fun d => d.Name) = ["php", "ext-json"] := by
  have h := C2_direct_lists_amended cjC2 none
  exact h.2.trans (by decide)

/-- C3: license normalization sends a string to the one-element list,
a list of strings to itself, any other JSON shape to the empty list,
and is idempotent on its own output. -/
theorem C3_normalize_license :
    (∀ s : String, NormalizeLicense (JVal.str s) = [s]) ∧
    (∀ l : List String, NormalizeLicense (JVal.arr (l.map JVal.str)) = l) ∧
    NormalizeLicense JVal.null = [] ∧
    (∀ fields, NormalizeLicense (JVal.obj fields) = []) ∧
    (∀ n : Int, NormalizeLicense (JVal.num n) = []) ∧
    (∀ b : Bool, NormalizeLicense (JVal.boolean b) = []) ∧
    (∀ v : JVal,
      NormalizeLicense (JVal.arr ((NormalizeLicense v).map JVal.str)) = NormalizeLicense v) := by
  refine ⟨fun s => rfl, fun l => filterMap_str_map l, rfl, fun _ => rfl, fun _ => rfl, fun _ => rfl,
    fun v => filterMap_str_map (NormalizeLicense v)⟩

/-- Every entry reachable after a lockfile loop either came from one
of its packages or was already in the accumulator. -/
theorem mem_lockLoop {cj : Option ComposerJSON} {isDev : Bool} {pkgs : List PackageInfo}
    {acc : List (String × List (String × Versions))} {e : String × List (String × Versions)}
    (he : e ∈ lockLoop cj isDev pkgs acc) :
    (∃ pkg ∈ pkgs, e = (pkg.Name, [(pkg.Version, mkVersions cj isDev pkg)])) ∨ e ∈ acc := by
  induction pkgs generalizing acc with
  | nil => exact Or.inr he
  | cons p ps ih =>
    rcases ih (by simpa [lockLoop] using he) with h | h
    · obtain ⟨pkg, hpkg, rfl⟩ := h
      exact Or.inl ⟨pkg, List.mem_cons_of_mem _ hpkg, rfl⟩
    · rcases mem_assocSet h with h' | h'
      · exact Or.inl ⟨p, List.mem_cons_self _ _, h'⟩
      · exact Or.inr h'

/-- Reading the map after a lockfile loop: the last package of the
loop bearing the key wins; otherwise the accumulator answers. -/
theorem assocGet_lockLoop (cj : Option ComposerJSON) (isDev : Bool) (pkgs : List PackageInfo)
    (acc : List (String × List (String × Versions))) (name : String) :
    assocGet name (lockLoop cj isDev pkgs acc) =
      match pkgs.reverse.find? (fun p => p.Name == name) with
      | some pkg => some [(pkg.Version, mkVersions cj isDev pkg)]
      | none => assocGet name acc := by
  induction pkgs generalizing acc with
  | nil => simp [lockLoop]
  | cons p ps ih =>
    have hstep : lockLoop cj isDev (p :: ps) acc =
        lockLoop cj isDev ps (assocSet p.Name [(p.Version, mkVersions cj isDev p)] acc) := rfl
    rw [hstep, ih]
    cases hf : ps.reverse.find? (fun q => q.Name == name) with
    | some pkg => simp [List.reverse_cons, List.find?_append, hf]
    | none =>
      by_cases h : p.Name = name
      · simp [List.reverse_cons, List.find?_append, hf, h, assocGet_assocSet_self]
      · simp [List.reverse_cons, List.find?_append, hf, h, assocGet_assocSet_ne (by simpa using h)]

/-- C4: every entry the graph builder produces from a lockfile has
exactly one of {dev, prod} set (Dev is the negation of Prod), exactly
one of {direct, transitive} set (Transitive is the negation of
Direct), and is direct precisely when its package name occurs in the
manifest's requirement map matching its own prod/dev
classification. -/
theorem C4_flag_invariant (cj : ComposerJSON) (lock : ComposerLock)
    (name : String) (vs : List (String × Versions)) (vk : String) (v : Versions)
    (hmem : (name, vs) ∈ (buildCompatibleWorkspace (some cj) (some lock)).Dependencies)
    (hv : (vk, v) ∈ vs) :
    (v.Dev = !v.Prod) ∧ (v.Transitive = !v.Direct) ∧
    (v.Prod = true → (v.Direct = true ↔ (assocGet name cj.Require).isSome = true)) ∧
    (v.Dev = true → (v.Direct = true ↔ (assocGet name cj.RequireDev).isSome = true)) := by
  rw [buildCompatibleWorkspace_dependencies] at hmem
  have hcase :
      ∃ isDev pkg, name = pkg.Name ∧ vs = [(pkg.Version, mkVersions (some cj) isDev pkg)] := by
    rcases mem_lockLoop hmem with h | h
    · obtain ⟨pkg, _, hpkg⟩ := h
      exact ⟨true, pkg, congrArg Prod.fst hpkg, congrArg Prod.snd hpkg⟩
    · rcases mem_lockLoop h with h' | h'
      · obtain ⟨pkg, _, hpkg⟩ := h'
        exact ⟨false, pkg, congrArg Prod.fst hpkg, congrArg Prod.snd hpkg⟩
      · simp at h'
  obtain ⟨isDev, pkg, rfl, rfl⟩ := hcase
  have hveq : v = mkVersions (some cj) isDev pkg :=
    congrArg Prod.snd (List.mem_singleton.mp hv)
  subst hveq
  cases isDev <;>
    simp [mkVersions, isDirectDependency]

/-- C4 witness: in lockC4 under cjC4, monolog/monolog is a direct
production entry. -/
theorem C4_flag_invariant_witness :
    ((mkVersions (some cjC4) false pkgC4).Dev = !(mkVersions (some cjC4) false pkgC4).Prod) ∧
    ((mkVersions (some cjC4) false pkgC4).Transitive = !(mkVersions (some cjC4) false pkgC4).Direct) ∧
    ((mkVersions (some cjC4) false pkgC4).Prod = true →
      ((mkVersions (some cjC4) false pkgC4).Direct = true ↔
        (assocGet "monolog/monolog" cjC4.Require).isSome = true)) ∧
    ((mkVersions (some cjC4) false pkgC4).Dev = true →
      ((mkVersions (some cjC4) false pkgC4).Direct = true ↔
        (assocGet "monolog/monolog" cjC4.RequireDev).isSome = true)) :=
  C4_flag_invariant cjC4 lockC4 "monolog/monolog"
    [("2.9.1", mkVersions (some cjC4) false pkgC4)]
    "2.9.1" (mkVersions (some cjC4) false pkgC4) (by decide) (by decide)

/-- C5: when a package name occurs in both lockfile lists, the final
dependency map holds exactly the entry built from the last matching
development package (Dev=true, Prod=false): the dev loop's map
assignment overwrites the production entry wholesale. -/
theorem C5_dev_overwrites_prod (cj : Option ComposerJSON) (lock : ComposerLock)
    (name : String) (pkg : PackageInfo)
    (hprod : name ∈ lock.Packages.map (fun p => p.Name))
    (hdev : lock.PackagesDev.reverse.find? (fun p => p.Name == name) = some pkg) :
    assocGet name (buildCompatibleWorkspace cj (some lock)).Dependencies =
      some [(pkg.Version, mkVersions cj true pkg)] ∧
    (mkVersions cj true pkg).Dev = true ∧
    (mkVersions cj true pkg).Prod = false := by
  refine ⟨?_, rfl, rfl⟩
  rw [buildCompatibleWorkspace_dependencies, assocGet_lockLoop, hdev]

/-- C5 witness: psr/log appears in both lists of lockC5; the final
entry is the dev one at version 3.0.0. -/
theorem C5_dev_overwrites_prod_witness :
    assocGet "psr/log" (buildCompatibleWorkspace (some cjC4) (some lockC5)).Dependencies =
      some [("3.0.0", mkVersions (some cjC4) true pkgC5)] ∧
    (mkVersions (some cjC4) true pkgC5).Dev = true ∧
    (mkVersions (some cjC4) true pkgC5).Prod = false :=
  C5_dev_overwrites_prod (some cjC4) lockC5 "psr/log" pkgC5 (by decide) rfl

/-- C6 counterexample: a manifest typed wordpress-plugin that also
requires a symfony/ package is labelled by the namespace sweep, not by
the type tag — the sweep runs before the type-tag checks. -/
theorem C6_counterexample :
    cjC6.PkgType = "wordpress-plugin" ∧
    detectFramework cjC6 = "Symfony Components" ∧
    detectFramework cjC6 ≠ "WordPress" := by
  refine ⟨rfl, by decide, by decide⟩

/-- C6 (amended): the classifier is first-match-wins in source order —
primary-package checks for CakePHP, Laravel and Symfony, then the
symfony/ namespace sweep, then the type-tag and remaining
primary-package checks, then the fallback.  laravel/framework (without
cakephp/cakephp) yields "Laravel"; a wordpress-plugin type tag yields
the sweep's "Symfony Components" whenever a symfony/ package is
required; no matching rule yields "Generic PHP". -/
theorem C6_framework_order_amended (cj : ComposerJSON) :
    ((assocGet "cakephp/cakephp" cj.Require).isSome = false →
      (assocGet "laravel/framework" cj.Require).isSome = true →
      detectFramework cj = "Laravel") ∧
    ((assocGet "cakephp/cakephp" cj.Require).isSome = false →
      (assocGet "laravel/framework" cj.Require).isSome = false →
      (assocGet "symfony/framework-bundle" cj.Require).isSome = false →
      cj.Require.any (fun p => goHasPre p.1 "symfony/") = true →
      cj.PkgType = "wordpress-plugin" →
      detectFramework cj = "Symfony Components") ∧
    ((assocGet "cakephp/cakephp" cj.Require).isSome = false →
      (assocGet "laravel/framework" cj.Require).isSome = false →
      (assocGet "symfony/framework-bundle" cj.Require).isSome = false →
      cj.Require.any (fun p => goHasPre p.1 "symfony/") = false →
      cj.PkgType ≠ "wordpress-plugin" → cj.PkgType ≠ "wordpress-theme" →
      (assocGet "johnpbloch/wordpress" cj.Require).isSome = false →
      (assocGet "drupal/core" cj.Require).isSome = false →
      cj.PkgType ≠ "drupal-module" → cj.PkgType ≠ "drupal-theme" →
      (assocGet "laminas/laminas-mvc" cj.Require).isSome = false →
      (assocGet "zendframework/zend-mvc" cj.Require).isSome = false →
      (assocGet "slim/slim" cj.Require).isSome = false →
      (assocGet "codeigniter4/framework" cj.Require).isSome = false →
      (assocGet "yiisoft/yii2" cj.Require).isSome = false →
      (assocGet "laravel/lumen-framework" cj.Require).isSome = false →
      detectFramework cj = "Generic PHP") := by
  refine ⟨?_, ?_, ?_⟩
  · intro h1 h2
    simp [detectFramework, h1, h2]
  · intro h1 h2 h3 h4 _
    simp [detectFramework, h1, h2, h3, h4]
  · intro h1 h2 h3 h4 h5 h6 h7 h8 h9 h10 h11 h12 h13 h14 h15 h16
    simp [detectFramework, h1, h2, h3, h4, h5, h6, h7, h8, h9, h10, h11, h12, h13, h14, h15, h16]

/-- C6 witness. -/
theorem C6_framework_order_amended_witness :
    detectFramework cjC6L = "Laravel" ∧
    detectFramework cjC6 = "Symfony Components" ∧
    detectFramework cjC6G = "Generic PHP" :=
  ⟨(C6_framework_order_amended cjC6L).1 (by decide) (by decide),
   (C6_framework_order_amended cjC6).2.1 (by decide) (by decide) (by decide) (by decide) rfl,
   (C6_framework_order_amended cjC6G).2.2 (by decide) (by decide) (by decide) (by decide)
     (by decide) (by decide) (by decide) (by decide) (by decide) (by decide) (by decide)
     (by decide) (by decide) (by decide) (by decide) (by decide)⟩

/-- The spec-side selector returns none exactly on the empty list. -/
theorem rootManifestSpec_eq_none {depth : String → Nat} {files : List String} :
    rootManifestSpec depth files = none ↔ files = [] := by
  cases files with
  | nil => simp [rootManifestSpec]
  | cons f rest =>
    cases h : rootManifestSpec depth rest <;> simp [rootManifestSpec, h]
    split <;> simp

/-- The spec-side selector picks an element of the list. -/
theorem rootManifestSpec_mem {depth : String → Nat} {files : List String} {m : String}
    (h : rootManifestSpec depth files = some m) : m ∈ files := by
  induction files with
  | nil => simp [rootManifestSpec] at h
  | cons f rest ih =>
    simp only [rootManifestSpec] at h
    split at h
    · cases h
      exact List.mem_cons_self _ _
    · rename_i g hg
      split at h <;> cases h
      · exact List.mem_cons_self _ _
      · exact List.mem_cons_of_mem _ (ih hg)

/-- The spec-side selector picks a depth-minimal element. -/
theorem rootManifestSpec_min {depth : String → Nat} (files : List String) :
    ∀ m, rootManifestSpec depth files = some m → ∀ f ∈ files, depth m ≤ depth f := by
  induction files with
  | nil => intro m h; simp [rootManifestSpec] at h
  | cons f rest ih =>
    intro m h x hx
    simp only [rootManifestSpec] at h
    rcases List.mem_cons.mp hx with hxf | hx'
    · subst hxf
      split at h
      · cases h
        exact Nat.le_refl _
      · rename_i g hg
        by_cases hle : depth x ≤ depth g
        · rw [if_pos hle] at h
          cases h
          exact Nat.le_refl _
        · rw [if_neg hle] at h
          cases h
          omega
    · split at h
      · rename_i hnone
        have hrest : rest = [] := rootManifestSpec_eq_none.mp hnone
        subst hrest
        cases hx'
      · rename_i g hg
        by_cases hle : depth f ≤ depth g
        · rw [if_pos hle] at h
          cases h
          exact le_trans hle (ih g hg x hx')
        · rw [if_neg hle] at h
          cases h
          exact ih _ hg x hx'

/-- The source loop refines the spec-side selector: starting from any
running best and minimum, it returns the selected manifest whenever
the selected manifest's depth beats the running minimum. -/
theorem findRootAux_eq_spec (env : FinderEnv) (rootDir : String) (files : List String) :
    ∀ (best : String) (minDepth : Nat),
      findRootAux env rootDir files best minDepth =
        match rootManifestSpec (fileDepth env rootDir) files with
        | some m => if fileDepth env rootDir m < minDepth then m else best
        | none => best := by
  induction files with
  | nil => intro best minDepth; rfl
  | cons f rest ih =>
    intro best minDepth
    have hstep : findRootAux env rootDir (f :: rest) best minDepth =
        if fileDepth env rootDir f < minDepth then
          findRootAux env rootDir rest f (fileDepth env rootDir f)
        else findRootAux env rootDir rest best minDepth := rfl
    rw [hstep]
    by_cases hd : fileDepth env rootDir f < minDepth
    · rw [if_pos hd, ih]
      cases hr : rootManifestSpec (fileDepth env rootDir) rest with
      | none =>
        have hrest : rest = [] := rootManifestSpec_eq_none.mp hr
        subst hrest
        simp [rootManifestSpec, hd]
      | some g =>
        simp only [rootManifestSpec, hr]
        by_cases hle : fileDepth env rootDir f ≤ fileDepth env rootDir g
        · rw [if_pos hle]
          have h1 : ¬ fileDepth env rootDir g < fileDepth env rootDir f := by omega
          simp [h1, hd]
        · rw [if_neg hle]
          have h1 : fileDepth env rootDir g < fileDepth env rootDir f := by omega
          have h2 : fileDepth env rootDir g < minDepth := by omega
          simp [h1, h2]
    · rw [if_neg hd, ih]
      cases hr : rootManifestSpec (fileDepth env rootDir) rest with
      | none =>
        have hrest : rest = [] := rootManifestSpec_eq_none.mp hr
        subst hrest
        simp [rootManifestSpec, hd]
      | some g =>
        simp only [rootManifestSpec, hr]
        by_cases hle : fileDepth env rootDir f ≤ fileDepth env rootDir g
        · rw [if_pos hle]
          have h1 : ¬ fileDepth env rootDir g < minDepth := by omega
          simp [hd, h1]
        · rw [if_neg hle]

/-- C7: findRootComposerFile returns exactly the manifest the spec
describes — the depth-minimal one, earliest in traversal order among
ties — whenever its depth is below the (unreachable) Go int maximum;
that manifest is in the list and its depth is minimal. -/
theorem C7_root_selection (env : FinderEnv) (rootDir : String) (files : List String) (m : String)
    (hspec : rootManifestSpec (fileDepth env rootDir) files = some m)
    (hbound : fileDepth env rootDir m < goMaxInt) :
    findRootComposerFile env rootDir files = m ∧ m ∈ files ∧
    ∀ f ∈ files, fileDepth env rootDir m ≤ fileDepth env rootDir f := by
  refine ⟨?_, rootManifestSpec_mem hspec, rootManifestSpec_min files m hspec⟩
  rw [findRootComposerFile, findRootAux_eq_spec env rootDir files "" goMaxInt, hspec]
  exact if_pos hbound

/-- C7 witness: manifests at depths {2, 0, 1}, in two different
traversal orders; the depth-0 manifest is selected both times. -/
theorem C7_root_selection_witness :
    findRootComposerFile envC7 "/r"
      ["/r/a/b/composer.json", "/r/composer.json", "/r/a/composer.json"] = "/r/composer.json" ∧
    findRootComposerFile envC7 "/r"
      ["/r/a/composer.json", "/r/a/b/composer.json", "/r/composer.json"] = "/r/composer.json" :=
  ⟨(C7_root_selection envC7 "/r"
      ["/r/a/b/composer.json", "/r/composer.json", "/r/a/composer.json"]
      "/r/composer.json" (by decide) (by decide)).1,
   (C7_root_selection envC7 "/r"
      ["/r/a/composer.json", "/r/a/b/composer.json", "/r/composer.json"]
      "/r/composer.json" (by decide) (by decide)).1⟩

/-- C8: a missing source directory yields the failure output — status
FAILURE, an empty workspace map, and exactly the one collected error
of the source-directory-missing kind. -/
theorem C8_missing_directory (env : FinderEnv) (sourceCodeDir : String)
    (h : env.dirExists = false) :
    (Start env sourceCodeDir).AnalysisInfo.Status = AnalysisStatus.FAILURE ∧
    (Start env sourceCodeDir).WorkSpaces = [] ∧
    (Start env sourceCodeDir).AnalysisInfo.Errors =
      [mkError "Source directory not found" GENERIC_ERROR
        ("The source directory does not exist: " ++ sourceCodeDir) "SourceCodeDirDoesNotExist"] ∧
    (Start env sourceCodeDir).AnalysisInfo.Errors.length = 1 := by
  simp [Start, h, generateFailureOutput]

/-- C8 witness. -/
theorem C8_missing_directory_witness :
    (Start envC8 "/nonexistent").AnalysisInfo.Status = AnalysisStatus.FAILURE ∧
    (Start envC8 "/nonexistent").WorkSpaces = [] ∧
    (Start envC8 "/nonexistent").AnalysisInfo.Errors =
      [mkError "Source directory not found" GENERIC_ERROR
        "The source directory does not exist: /nonexistent" "SourceCodeDirDoesNotExist"] ∧
    (Start envC8 "/nonexistent").AnalysisInfo.Errors.length = 1 :=
  C8_missing_directory envC8 "/nonexistent" rfl

/-- C9 counterexample: with a composer.lock present next to the root
composer.json and failing to decode, the pipeline succeeds but the
Output's error list is EMPTY — no MalformedLockfile-kind error is
collected (the decode failure is silently swallowed). -/
theorem C9_counterexample :
    envC9.composerLockFiles = ["/p/composer.lock"] ∧
    envC9.parseLockResult "/p/composer.lock" = Except.error "invalid character at offset 0" ∧
    (Start envC9 "/p").AnalysisInfo.Status = AnalysisStatus.SUCCESS ∧
    (Start envC9 "/p").AnalysisInfo.Errors = [] := by
  refine ⟨rfl, rfl, by decide, by decide⟩

/-- C9 (amended): when the root manifest parses and the matched root
lockfile fails to decode, the pipeline does not abort — the project is
built with ComposerLock unset (as if no lockfile existed) — but no
error of any kind is collected into the Output's error list. -/
theorem C9_lockfile_decode_amended (env : FinderEnv) (dir : String) (cd : ComposerJSON) (e : String)
    (hdir : env.dirExists = true) (hwalk : env.walkError = none)
    (hfiles : env.composerJSONFiles ≠ [])
    (hjson : env.parseJSONResult (findRootComposerFile env dir env.composerJSONFiles) = Except.ok cd)
    (hlockpath : findMatchingLockFile env (findRootComposerFile env dir env.composerJSONFiles)
        env.composerLockFiles ≠ "")
    (hlock : env.parseLockResult (findMatchingLockFile env
        (findRootComposerFile env dir env.composerJSONFiles) env.composerLockFiles) =
      Except.error e) :
    ∃ pi, FindPHPProjects env dir = Except.ok pi ∧ pi.ComposerLock = none ∧
      (Start env dir).AnalysisInfo.Status = AnalysisStatus.SUCCESS ∧
      (Start env dir).AnalysisInfo.Errors = [] := by
  have hlen : ¬ env.composerJSONFiles.length = 0 := by
    simpa [List.length_eq_zero] using hfiles
  have hfind : FindPHPProjects env dir = Except.ok
      { Name := cd.Name
        Version := cd.Version
        Description := cd.Description
        RootDir := dir
        ComposerJSONPath := findRootComposerFile env dir env.composerJSONFiles
        ComposerLockPath := findMatchingLockFile env
          (findRootComposerFile env dir env.composerJSONFiles) env.composerLockFiles
        RelativeComposerJSON := getRelativePath env dir
          (findRootComposerFile env dir env.composerJSONFiles)
        RelativeComposerLock := getRelativePath env dir (findMatchingLockFile env
          (findRootComposerFile env dir env.composerJSONFiles) env.composerLockFiles)
        ComposerJSON := some cd
        ComposerLock := none
        Framework := detectFramework cd
        IsMonorepo := env.composerJSONFiles.length > 1
        Workspaces :=
          if env.composerJSONFiles.length > 1 then
            findWorkspaces env dir (findRootComposerFile env dir env.composerJSONFiles)
              env.composerJSONFiles env.composerLockFiles
          else [] } := by
    simp [FindPHPProjects, hwalk, hlen, hjson, hlock]
  refine ⟨_, hfind, rfl, ?_, ?_⟩
  · simp [Start, hdir, hfind, generateCompatibleAnalysisInfo]
  · simp [Start, hdir, hfind, generateCompatibleAnalysisInfo]

/-- C9 witness. -/
theorem C9_lockfile_decode_amended_witness :
    (Start envC9 "/p").AnalysisInfo.Status = AnalysisStatus.SUCCESS ∧
    (Start envC9 "/p").AnalysisInfo.Errors = [] := by
  obtain ⟨pi, _, _, h3, h4⟩ :=
    C9_lockfile_decode_amended envC9 "/p" cjC9 "invalid character at offset 0"
      rfl rfl (by decide) rfl (by decide) rfl
  exact ⟨h3, h4⟩

/-- Folding Go-map assignments whose keys all differ from the probed
key leaves the probe unchanged. -/
theorem assocGet_foldl_assocSet_of_ne {α β : Type} (key : String) (f : α → String) (g : α → β)
    (l : List α) :
    ∀ acc : List (String × β), (∀ x ∈ l, f x ≠ key) →
      assocGet key (l.foldl (fun m x => assocSet (f x) (g x) m) acc) = assocGet key acc := by
  induction l with
  | nil => intro acc _; rfl
  | cons y ys ih =>
    intro acc h
    have hstep : (y :: ys).foldl (fun m x => assocSet (f x) (g x) m) acc =
        ys.foldl (fun m x => assocSet (f x) (g x) m) (assocSet (f y) (g y) acc) := rfl
    rw [hstep, ih _ (fun x hx => h x (List.mem_cons_of_mem _ hx)),
      assocGet_assocSet_ne (h y (List.mem_cons_self _ _))]

/-- Folding Go-map assignments with pairwise-distinct keys: probing
any assigned key answers its value. -/
theorem assocGet_foldl_assocSet_mem {α β : Type} (f : α → String) (g : α → β)
    (l : List α) :
    ∀ (acc : List (String × β)) (x : α), x ∈ l → (l.map f).Nodup →
      assocGet (f x) (l.foldl (fun m y => assocSet (f y) (g y) m) acc) = some (g x) := by
  induction l with
  | nil => intro acc x hx _; cases hx
  | cons y ys ih =>
    intro acc x hx hnodup
    have hstep : (y :: ys).foldl (fun m z => assocSet (f z) (g z) m) acc =
        ys.foldl (fun m z => assocSet (f z) (g z) m) (assocSet (f y) (g y) acc) := rfl
    rw [hstep]
    rcases List.mem_cons.mp hx with hxy | hx'
    · subst hxy
      have hnot : ∀ z ∈ ys, f z ≠ f x := by
        intro z hz hc
        exact (List.nodup_cons.mp hnodup).1 (hc ▸ List.mem_map_of_mem f hz)
      rw [assocGet_foldl_assocSet_of_ne (f x) f g ys _ hnot, assocGet_assocSet_self]
    · exact ih _ x hx' (List.nodup_cons.mp hnodup).2

/-- Every workspace findWorkspaces emits is keyed by its composer.json
path (filename included) relativized to the root manifest's directory,
and stems from a non-root manifest file of the traversal. -/
theorem mem_findWorkspaces {env : FinderEnv} {rootDir rootComposerPath : String}
    {composerFiles lockFiles : List String} {ws : WorkspaceInfo}
    (h : ws ∈ findWorkspaces env rootDir rootComposerPath composerFiles lockFiles) :
    ws.RelativeComposerJSON =
      getRelativePath env (env.dirOf rootComposerPath) ws.ComposerJSONPath ∧
    ws.ComposerJSONPath ∈ composerFiles ∧ ws.ComposerJSONPath ≠ rootComposerPath := by
  simp only [findWorkspaces, List.mem_filterMap] at h
  obtain ⟨f, hf, hsome⟩ := h
  by_cases h1 : (f == rootComposerPath) = true
  · simp [h1] at hsome
  · by_cases h2 : containsSub f "/vendor/" = true
    · simp [h1, h2] at hsome
    · cases hp : env.parseJSONResult f with
      | error e => simp [h1, h2, hp] at hsome
      | ok cd =>
        simp only [h1, h2, hp, Bool.false_eq_true, if_false, Option.some.injEq] at hsome
        subst hsome
        refine ⟨rfl, hf, ?_⟩
        simpa using h1

/-- C10: in a monorepo output the root workspace is keyed by ".", and
every secondary workspace is keyed by (and only by) the relative path
of its composer.json file — filename included — computed against the
root manifest's directory. -/
theorem C10_workspace_keys (env : FinderEnv) (dir : String) (pi : ProjectInfo)
    (hok : FindPHPProjects env dir = Except.ok pi)
    (hmono : pi.IsMonorepo = true)
    (hnodot : ∀ ws ∈ pi.Workspaces, ws.RelativeComposerJSON ≠ DEFAULT_WORKSPACE_CHARACTER)
    (hnodup : (pi.Workspaces.map (fun ws => ws.RelativeComposerJSON)).Nodup) :
    assocGet DEFAULT_WORKSPACE_CHARACTER (buildCompatibleWorkspaces pi) =
      some (buildCompatibleWorkspace pi.ComposerJSON pi.ComposerLock) ∧
    (∀ ws ∈ pi.Workspaces,
      assocGet ws.RelativeComposerJSON (buildCompatibleWorkspaces pi) =
        some (buildCompatibleWorkspace ws.ComposerJSON ws.ComposerLock)) ∧
    (∀ ws ∈ pi.Workspaces,
      ws.RelativeComposerJSON =
        getRelativePath env (env.dirOf pi.ComposerJSONPath) ws.ComposerJSONPath ∧
      ws.ComposerJSONPath ∈ env.composerJSONFiles ∧
      ws.ComposerJSONPath ≠ pi.ComposerJSONPath) := by
  refine ⟨?_, ?_, ?_⟩
  · simp only [buildCompatibleWorkspaces, hmono, if_true]
    exact (assocGet_foldl_assocSet_of_ne DEFAULT_WORKSPACE_CHARACTER
        (fun ws => ws.RelativeComposerJSON)
        (fun ws => buildCompatibleWorkspace ws.ComposerJSON ws.ComposerLock)
        pi.Workspaces _ hnodot).trans
      (assocGet_assocSet_self _ _ _)
  · intro ws hws
    simp only [buildCompatibleWorkspaces, hmono, if_true]
    exact assocGet_foldl_assocSet_mem
      (fun w => w.RelativeComposerJSON)
      (fun w => buildCompatibleWorkspace w.ComposerJSON w.ComposerLock)
      pi.Workspaces _ ws hws hnodup
  · cases hw : env.walkError with
    | some e => simp [FindPHPProjects, hw] at hok
    | none =>
      by_cases hlen : env.composerJSONFiles.length = 0
      · simp [FindPHPProjects, hw, hlen] at hok
      · cases hp : env.parseJSONResult (findRootComposerFile env dir env.composerJSONFiles) with
        | error e2 => simp [FindPHPProjects, hw, hlen, hp] at hok
        | ok cd =>
          simp only [FindPHPProjects, hw, hlen, hp, if_false, Except.ok.injEq] at hok
          subst hok
          have hgt : env.composerJSONFiles.length > 1 := by simpa using hmono
          intro ws hws
          have hws' : ws ∈ findWorkspaces env dir
              (findRootComposerFile env dir env.composerJSONFiles)
              env.composerJSONFiles env.composerLockFiles := by
            simpa [hgt] using hws
          exact mem_findWorkspaces hws'

/-- C10 witness: monorepo with a secondary manifest at
pkgs/a/composer.json; its workspace key keeps the composer.json
filename and the root key is ".". -/
theorem C10_workspace_keys_witness :
    assocGet "." (buildCompatibleWorkspaces piC10) =
      some (buildCompatibleWorkspace (some cjRoot) none) ∧
    assocGet "pkgs/a/composer.json" (buildCompatibleWorkspaces piC10) =
      some (buildCompatibleWorkspace (some cjA) none) ∧
    wsA.RelativeComposerJSON =
      getRelativePath envC10 (envC10.dirOf piC10.ComposerJSONPath) wsA.ComposerJSONPath := by
  have h := C10_workspace_keys envC10 "/p" piC10 rfl rfl (by decide) (by decide)
  exact ⟨h.1, h.2.1 wsA (List.mem_cons_self _ _), (h.2.2 wsA (List.mem_cons_self _ _)).1⟩

end PhpSbom
